import Mathlib

/-!
Verification development for the Indicator Registry & Computation Engine
(`mcp_indicators/indicators/registry.py`).

The Python module is shallowly embedded: Python `dict`s become association
lists with insertion-order-preserving update semantics, Python scalar values
become the inductive `Value` (floats are modelled as rationals), fallible
Python code returns `Except Err`, and the in-place mutation of the pandas
DataFrame inside `compute` is modelled by explicit state passing of a
`Table` value.
-/

set_option autoImplicit false

namespace IndicatorRegistry

/-- Python scalar values as they flow through the registry's parameter
pipeline.  Python `float` is modelled as an exact rational. -/
inductive Value where
  | vInt (n : Int)
  | vFloat (q : ℚ)
  | vBool (b : Bool)
  | vStr (s : String)
deriving DecidableEq, Repr

/-- Python `dict` with string keys, modelled as an association list.  The
list order is the dict's insertion order. -/
abbrev Dict (α : Type) := List (String × α)

/-- Keys of a dict, in insertion order (`list(d.keys())`). -/
def dictKeys {α : Type} (d : Dict α) : List String := d.map Prod.fst

instance {ε α : Type} [DecidableEq ε] [DecidableEq α] : DecidableEq (Except ε α) :=
  fun x y =>
    match x, y with
    | .ok a, .ok b =>
      if h : a = b then .isTrue (by rw [h]) else .isFalse (by simp [h])
    | .error e, .error f =>
      if h : e = f then .isTrue (by rw [h]) else .isFalse (by simp [h])
    | .ok _, .error _ => .isFalse (by simp)
    | .error _, .ok _ => .isFalse (by simp)

/-- Models `d[k]` / `k in d`: first (and, by the dict invariant, only) binding. -/
def dictLookup {α : Type} : Dict α → String → Option α
  | [], _ => none
  | (k', v) :: rest, k => if k' = k then some v else dictLookup rest k

/-- Models `d[k] = v`: replace the value in place if `k` is present, otherwise
append the new binding — exactly CPython's insertion-order semantics. -/
def dictInsert {α : Type} : Dict α → String → α → Dict α
  | [], k, v => [(k, v)]
  | (k', v') :: rest, k, v =>
      if k' = k then (k, v) :: rest else (k', v') :: dictInsert rest k v

/-- Models `d.update(p)` (also used to model building a dict from a sequence of
key/value pairs when `d = []`). -/
def dictUpdate {α : Type} (d : Dict α) (p : List (String × α)) : Dict α :=
  p.foldl (fun m kv => dictInsert m kv.1 kv.2) d

/-- Models `mapM` for `Except`, written recursively: models a Python loop that
processes entries in order and raises at the first offending entry. -/
def exceptMapM {ε α β : Type} (f : α → Except ε β) : List α → Except ε (List β)
  | [] => .ok []
  | x :: xs =>
    match f x with
    | .error e => .error e
    | .ok y =>
      match exceptMapM f xs with
      | .error e => .error e
      | .ok ys => .ok (y :: ys)

/-- The value put into `ParamSpec.choices`.  The dataclass annotates the
field as `Optional[List[Any]]`, but Python does not enforce that: the
built-in catalog actually passes its description *strings* positionally
into this slot, so the embedding must be able to hold either shape. -/
inductive ChoicesSpec where
  | ofList (l : List Value)
  | ofStr (s : String)
deriving DecidableEq, Repr

/-- Models `ParamSpec` dataclass (registry.py lines 63–71).  Field order matters:
the built-in definitions construct these positionally. -/
structure ParamSpec where
  name : String
  type : String
  default : Value
  min : Option ℚ := none
  max : Option ℚ := none
  choices : Option ChoicesSpec := none
  description : String := ""
deriving DecidableEq, Repr

/-- Models `BackendBinding` dataclass. -/
structure BackendBinding where
  backend : String
  func : String
  param_map : Dict String := []
  input_map : Dict String := []
deriving DecidableEq, Repr

/-- Models `OutputColumn` dataclass (name_pattern kept as the raw regex text). -/
structure OutputColumn where
  name_pattern : String
  description : String := ""
  role : String := ""
deriving DecidableEq, Repr

/-- Models `NLPHints` dataclass. -/
structure NLPHints where
  keywords : List String := []
  negative_keywords : List String := []
  synonyms_by_lang : Dict (List String) := []
  regex_templates : List String := []
  examples : List String := []
deriving DecidableEq, Repr

/-- Models `FormulaSpec` dataclass (documentation only). -/
structure FormulaSpec where
  latex : String := ""
  pseudocode : List String := []
  notes : String := ""
deriving DecidableEq, Repr

/-- Models `IndicatorDef` dataclass. -/
structure IndicatorDef where
  name : String
  group : String
  description : String
  inputs : List String
  params : List ParamSpec
  synonyms : List String := []
  source_labels : Dict String := []
  default_thresholds : Dict ℚ := []
  output_schema : List OutputColumn := []
  bindings : List BackendBinding := []
  nlp : NLPHints := {}
  formula : Option FormulaSpec := none
  tags : List String := []
  references : List (Dict String) := []
deriving DecidableEq, Repr

/-- Models `IndicatorDef.param_defaults`: `{p.name: p.default for p in self.params}`. -/
def param_defaults (d : IndicatorDef) : Dict Value :=
  dictUpdate [] (d.params.map fun p => (p.name, p.default))

/-- The `pmap` built inside `validate_params`: `{p.name: p for p in idef.params}`. -/
def pmapOf (d : IndicatorDef) : Dict ParamSpec :=
  dictUpdate [] (d.params.map fun p => (p.name, p))

/-- Error taxonomy.  Python raises `ValueError` / `KeyError` /
`NotImplementedError` / `TypeError`; the constructors keep the structured
information the messages carry. -/
inductive Err where
  | duplicateDef (name : String)
  | unknownIndicator (query : String) (known : List String)
  | unknownParam (param : String) (indicator : String)
  | invalidParam (param : String) (constraint : String)
  | typeError (param : String)
  | noBinding (indicator : String) (backend : String)
  | notImplementedBackend (backend : String)
  | missingInput (logical : String) (columns : List String)
  | internalKeyError (key : String)
  | backendFailure (msg : String)
deriving DecidableEq, Repr

/-- The registry's state: `self._defs` and `self._syn_index`. -/
structure RegistryState where
  defs : Dict IndicatorDef := []
  syn_index : Dict String := []
deriving DecidableEq, Repr

/-- The fresh state `IndicatorRegistry.__init__` starts from, before the
built-in definitions are registered. -/
def emptyState : RegistryState := {}

/-- Python `str.strip()`: drop leading and trailing whitespace.  Written
over the character list so that it is structurally recursive (and hence
evaluable inside the kernel). -/
def pyStrip (s : String) : String :=
  ⟨((s.data.dropWhile Char.isWhitespace).reverse.dropWhile Char.isWhitespace).reverse⟩

/-- Python `str.lower()` restricted to ASCII.  Every alias and query the
catalog and claims exercise is ASCII (the sole non-ASCII synonym is
already lower-case), so this coincides with Python on the data of
interest. -/
def asciiLowerChar (c : Char) : Char :=
  if 'A' ≤ c ∧ c ≤ 'Z' then Char.ofNat (c.toNat + 32) else c

def asciiLower (s : String) : String := ⟨s.data.map asciiLowerChar⟩

/-- Models `name_or_alias.strip().lower()`. -/
def normKey (s : String) : String := asciiLower (pyStrip s)

/-- Insertion sort on strings, used to model Python's `sorted(...)` over
canonical names in `list()`. -/
def insertSorted (x : String) : List String → List String
  | [] => [x]
  | y :: ys => if x ≤ y then x :: y :: ys else y :: insertSorted x ys

def sortStrings : List String → List String
  | [] => []
  | x :: xs => insertSorted x (sortStrings xs)

/-- Models `IndicatorRegistry.list()`: sorted canonical names. -/
def listNames (st : RegistryState) : List String :=
  sortStrings (dictKeys st.defs)

/-- Models `IndicatorRegistry.resolve` (registry.py lines 149–158): lowercased
lookup against the catalog, then the alias index, then a raw
case-sensitive catalog lookup, else `KeyError`. -/
def resolve (st : RegistryState) (name_or_alias : String) : Except Err IndicatorDef :=
  let key := normKey name_or_alias
  match dictLookup st.defs key with
  | some d => .ok d
  | none =>
    match dictLookup st.syn_index key with
    | some canonical =>
      -- Python does `self._defs[self._syn_index[key]]`, which would raise a
      -- bare KeyError if the index pointed at a missing canonical name.
      match dictLookup st.defs canonical with
      | some d => .ok d
      | none => .error (.internalKeyError canonical)
    | none =>
      match dictLookup st.defs name_or_alias with
      | some d => .ok d
      | none => .error (.unknownIndicator name_or_alias (listNames st))

/-- The alias set built inside `register`:
`{name} ∪ synonyms ∪ (values across synonyms_by_lang) ∪ non-empty source_labels`.
Python accumulates these into a `set` whose iteration order is unspecified;
since every alias is mapped to the same canonical name, the alias-index
*content* does not depend on that order, and we fix the textual order. -/
def allAliases (d : IndicatorDef) : List String :=
  [d.name] ++ d.synonyms
    ++ (d.nlp.synonyms_by_lang.map Prod.snd).flatten
    ++ (d.source_labels.map Prod.snd).filter (fun v => !(v == ""))

/-- Models `IndicatorRegistry.register` (registry.py lines 281–292).  The result
pairs the raised-or-not outcome with the registry state after the call;
on the duplicate-name error the state is returned untouched, because the
check precedes every mutation. -/
def registerRun (st : RegistryState) (idef : IndicatorDef) :
    Except Err Unit × RegistryState :=
  if (dictLookup st.defs idef.name).isSome then
    (.error (.duplicateDef idef.name), st)
  else
    let defs' := dictInsert st.defs idef.name idef
    let syn' := (allAliases idef).foldl
      (fun m a => dictInsert m (asciiLower a) idef.name) st.syn_index
    (.ok (), { defs := defs', syn_index := syn' })

/-- Truncation toward zero, the semantics of Python's `int(float)`. -/
def ratTrunc (q : ℚ) : Int := if 0 ≤ q then ⌊q⌋ else ⌈q⌉

/-- Decimal digit run to a number; `none` on the empty run or a
non-digit. -/
def digitsToNat (cs : List Char) : Option Nat :=
  if cs.isEmpty then none
  else
    cs.foldl
      (fun acc c =>
        match acc with
        | none => none
        | some n => if c.isDigit then some (n * 10 + (c.toNat - 48)) else none)
      (some 0)

/-- Python `int(str)` on the common case (optional sign, decimal digits,
surrounding whitespace).  Exotic accepted spellings (underscore grouping)
are not modelled; no claim depends on them. -/
def pyParseInt (s : String) : Option Int :=
  match (pyStrip s).data with
  | '-' :: rest => (digitsToNat rest).map (fun n => -(n : Int))
  | '+' :: rest => (digitsToNat rest).map (fun n => (n : Int))
  | cs => (digitsToNat cs).map (fun n => (n : Int))

/-- Unsigned decimal `digits[.digits]` to an exact rational. -/
def parseDecimal (cs : List Char) : Option ℚ :=
  match cs.splitOn '.' with
  | [a] => (digitsToNat a).map (fun n => (n : ℚ))
  | [a, b] =>
    match digitsToNat a, digitsToNat b with
    | some n, some frac => some ((n : ℚ) + (frac : ℚ) / (10 : ℚ) ^ b.length)
    | _, _ => none
  | _ => none

/-- Python `float(str)` on the common case `[+-]digits[.digits]`. -/
def pyParseFloat (s : String) : Option ℚ :=
  match (pyStrip s).data with
  | '-' :: rest => (parseDecimal rest).map (fun q => -q)
  | '+' :: rest => parseDecimal rest
  | cs => parseDecimal cs

/-- Python `int(v)`; `none` models the `ValueError`/`TypeError` raised on
an unconvertible value.  `bool` is an `int` subclass in Python. -/
def pyInt : Value → Option Int
  | .vInt n => some n
  | .vFloat q => some (ratTrunc q)
  | .vBool b => some (cond b 1 0)
  | .vStr s => pyParseInt s

/-- Python `float(v)`. -/
def pyFloat : Value → Option ℚ
  | .vInt n => some (n : ℚ)
  | .vFloat q => some q
  | .vBool b => some (cond b 1 0)
  | .vStr s => pyParseFloat s

/-- Python `str(v)`.  Integers and booleans render exactly as in Python.
The decimal rendering of a non-integral float is abstracted; the model
preserves the property that matters (Python's float repr always contains
a `.` or an `e`, so it never collides with a bare digit string or word). -/
def pyStr : Value → String
  | .vInt n => toString n
  | .vBool b => cond b "True" "False"
  | .vStr s => s
  | .vFloat q =>
      if q.den = 1 then toString q.num ++ ".0"
      else toString q.num ++ "." ++ toString q.den

/-- Python `needle in haystack` for strings: substring containment. -/
def strContains (haystack needle : String) : Bool :=
  decide (needle.data <:+: haystack.data)

/-- The string forms accepted as `True` (registry.py line 185). -/
def trueForms : List String := ["1", "true", "yes", "y"]

/-- The string forms accepted as `False` (registry.py line 187). -/
def falseForms : List String := ["0", "false", "no", "n"]

/-- The `bool` branch of the coercion chain: native booleans pass
through; otherwise `sv = str(v).lower()` is tested against the accepted
string forms; anything else raises. -/
def coerceBool (pname : String) (v : Value) : Except Err Value :=
  match v with
  | .vBool _ => .ok v
  | .vInt n =>
    if asciiLower (pyStr (Value.vInt n)) ∈ trueForms then .ok (.vBool true)
    else if asciiLower (pyStr (Value.vInt n)) ∈ falseForms then .ok (.vBool false)
    else .error (.invalidParam pname "expects bool")
  | .vFloat q =>
    if asciiLower (pyStr (Value.vFloat q)) ∈ trueForms then .ok (.vBool true)
    else if asciiLower (pyStr (Value.vFloat q)) ∈ falseForms then .ok (.vBool false)
    else .error (.invalidParam pname "expects bool")
  | .vStr s =>
    if asciiLower (pyStr (Value.vStr s)) ∈ trueForms then .ok (.vBool true)
    else if asciiLower (pyStr (Value.vStr s)) ∈ falseForms then .ok (.vBool false)
    else .error (.invalidParam pname "expects bool")

/-- The type-directed coercion step of `validate_params`
(registry.py lines 176–192), one parameter at a time.  An unrecognised
declared type falls through every branch and leaves the value unchanged,
exactly like the Python `if/elif` chain. -/
def coerceValue (pname : String) (ty : String) (v : Value) : Except Err Value :=
  if ty = "int" then
    match pyInt v with
    | some n => .ok (.vInt n)
    | none => .error (.invalidParam pname "int conversion")
  else if ty = "float" then
    match pyFloat v with
    | some q => .ok (.vFloat q)
    | none => .error (.invalidParam pname "float conversion")
  else if ty = "bool" then coerceBool pname v
  else if ty = "str" then .ok (.vStr (pyStr v))
  else .ok v

/-- Models `if spec.min is not None and float(val) < spec.min: raise ...`.
If `float(val)` itself is unconvertible Python raises there; modelled as
an error as well. -/
def checkMin (pname : String) (spec : ParamSpec) (val : Value) : Except Err Unit :=
  match spec.min with
  | none => .ok ()
  | some m =>
    match pyFloat val with
    | none => .error (.invalidParam pname "float conversion in min check")
    | some q => if q < m then .error (.invalidParam pname "< min") else .ok ()

/-- Models `if spec.max is not None and float(val) > spec.max: raise ...`. -/
def checkMax (pname : String) (spec : ParamSpec) (val : Value) : Except Err Unit :=
  match spec.max with
  | none => .ok ()
  | some m =>
    match pyFloat val with
    | none => .error (.invalidParam pname "float conversion in max check")
    | some q => if m < q then .error (.invalidParam pname "> max") else .ok ()

/-- Models `if spec.choices is not None and val not in spec.choices: raise ...`.
When the slot actually holds a string (as the built-in catalog fills it),
Python's `val not in choices` is a substring test for string `val` and a
`TypeError` for every other value. -/
def checkChoices (pname : String) (spec : ParamSpec) (val : Value) : Except Err Unit :=
  match spec.choices with
  | none => .ok ()
  | some (.ofList cs) =>
      if val ∈ cs then .ok () else .error (.invalidParam pname "not in choices")
  | some (.ofStr s) =>
      match val with
      | .vStr t => if strContains s t then .ok () else .error (.invalidParam pname "not in choices")
      | _ => .error (.typeError pname)

/-- One iteration of the `for k, v in out.items()` loop of
`validate_params`: unknown-parameter check, type coercion, then the
min/max/choices checks on the coerced value. -/
def validateStep (iname : String) (pmap : Dict ParamSpec) (kv : String × Value) :
    Except Err (String × Value) :=
  match dictLookup pmap kv.1 with
  | none => .error (.unknownParam kv.1 iname)
  | some spec =>
    match coerceValue kv.1 spec.type kv.2 with
    | .error e => .error e
    | .ok w =>
      match checkMin kv.1 spec w with
      | .error e => .error e
      | .ok _ =>
        match checkMax kv.1 spec w with
        | .error e => .error e
        | .ok _ =>
          match checkChoices kv.1 spec w with
          | .error e => .error e
          | .ok _ => .ok (kv.1, w)

/-- Models `IndicatorRegistry.validate_params` (registry.py lines 166–200).
`out = defaults; out.update(params)`, then the per-entry loop.  Python
mutates `out[k]` in place while iterating; since each key is visited
exactly once and dict iteration order is insertion order, that loop is
the entrywise `exceptMapM` below. -/
def validate_params (st : RegistryState) (name_or_alias : String)
    (params : Dict Value) : Except Err (Dict Value) :=
  match resolve st name_or_alias with
  | .error e => .error e
  | .ok idef =>
    exceptMapM (validateStep idef.name (pmapOf idef))
      (dictUpdate (param_defaults idef) params)

/-- A pandas column of numeric data. -/
abbrev Series := List ℚ

/-- The caller's DataFrame, reduced to what the engine observes: an
ordered list of named columns.  `compute` mutates the Python frame in
place; the model passes the table state explicitly instead. -/
abbrev Table := List (String × Series)

/-- Models `df.columns`. -/
def tableCols (t : Table) : List String := t.map Prod.fst

/-- Models `_PRICE_ALIASES` (registry.py lines 43–49). -/
def PRICE_ALIASES : Dict (List String) :=
  [ ("open",   ["open", "Open", "OPEN", "o", "O"])
  , ("high",   ["high", "High", "HIGH", "h", "H"])
  , ("low",    ["low", "Low", "LOW", "l", "L"])
  , ("close",  ["close", "Close", "CLOSE", "c", "C", "price", "Price", "adj_close", "Adj Close"])
  , ("volume", ["volume", "Volume", "VOLUME", "vol", "Vol", "VOL"]) ]

/-- First alias of the list that is a column of `df`. -/
def findSeriesAux (df : Table) : List String → Option Series
  | [] => none
  | c :: cs =>
    match dictLookup df c with
    | some s => some s
    | none => findSeriesAux df cs

/-- Models `_find_series` (registry.py lines 51–57): scan the logical name's
alias list in order, fall back to the literal logical name, else
`KeyError` naming the logical input and the table's columns. -/
def find_series (df : Table) (logical : String) : Except Err Series :=
  match findSeriesAux df ((dictLookup PRICE_ALIASES logical).getD []) with
  | some s => .ok s
  | none =>
    match dictLookup df logical with
    | some s => .ok s
    | none => .error (.missingInput logical (tableCols df))

/-- Models `{binding.param_map.get(k, k): v for k, v in pvals.items()}`
(registry.py line 208): rename each validated parameter through
`param_map`, pass unmapped names through, in declaration order; a later
entry targeting the same backend argument overwrites the earlier one. -/
def translateBackendArgs (param_map : Dict String) (pvals : Dict Value) : Dict Value :=
  dictUpdate [] (pvals.map fun kv => ((dictLookup param_map kv.1).getD kv.1, kv.2))

/-- A keyword argument handed to the backend adapter: either a resolved
input series or a translated parameter value. -/
inductive KWArg where
  | series (s : Series)
  | value (v : Value)
deriving DecidableEq, Repr

/-- Models `{**input_kwargs, **backend_args}`: parameter arguments overwrite a
clashing input argument name. -/
def mergeKwargs (input_kwargs : Dict Series) (backend_args : Dict Value) : Dict KWArg :=
  dictUpdate (input_kwargs.map fun kv => (kv.1, KWArg.series kv.2))
    (backend_args.map fun kv => (kv.1, KWArg.value kv.2))

/-- The backend adapter's `call(df, func_name=..., **kwargs)`: given the
target function name, the merged keyword arguments and the shared table,
it either returns the table with its result columns attached (modelling
the in-place mutation) or raises.  The engine treats it as opaque, so
theorems quantify over arbitrary adapters. -/
abbrev Adapter := String → Dict KWArg → Table → Except Err Table

/-- The adapter that attaches nothing and never fails; used to observe
whether a `compute` failure arises before the backend is invoked. -/
def idAdapter : Adapter := fun _ _ t => .ok t

/-- Everything `compute` assembles before the backend is invoked
(steps 1–4 of the dispatch protocol plus the adapter lookup). -/
structure PreData where
  idef : IndicatorDef
  binding : BackendBinding
  pvals : Dict Value
  backend_args : Dict Value
  input_kwargs : Dict Series
deriving Repr

/-- The pre-invocation phase of `IndicatorRegistry.compute`
(registry.py lines 203–213): resolve, first binding matching the backend,
parameter validation, argument translation, logical-input resolution, and
the dynamic adapter import (only `"pandas_ta"` is implemented). -/
def computePre (st : RegistryState) (df : Table) (name_or_alias : String)
    (params : Dict Value) (backend : String) : Except Err PreData :=
  match resolve st name_or_alias with
  | .error e => .error e
  | .ok idef =>
    match idef.bindings.find? (fun b => b.backend == backend) with
    | none => .error (.noBinding idef.name backend)
    | some binding =>
      match validate_params st idef.name params with
      | .error e => .error e
      | .ok pvals =>
        let backend_args := translateBackendArgs binding.param_map pvals
        match exceptMapM
            (fun li => (find_series df li.1).map fun s => (li.2, s)) binding.input_map with
        | .error e => .error e
        | .ok input_kwargs =>
          if backend = "pandas_ta" then
            .ok ⟨idef, binding, pvals, backend_args, input_kwargs⟩
          else
            .error (.notImplementedBackend backend)

/-- The `{"columns": ..., "spec": {...}}` mapping `compute` returns. -/
structure ComputeResult where
  columns : List String
  spec_name : String
  spec_params : Dict Value
  spec_backend : String
  spec_func : String
  spec_inputs : List String
deriving DecidableEq, Repr

/-- Models `IndicatorRegistry.compute` (registry.py lines 202–226).  The second
component of the result is the caller's table after the call: unchanged
on a pre-invocation failure, the adapter's output on success.  When the
adapter itself raises, the model returns the pre-call table; Python
leaves whatever partial in-place mutation the backend performed, and no
claim concerns the table contents in that case — only the propagated
error value.  `before`
snapshots the column names, and the new columns are the post-call columns
filtered by non-membership in that snapshot. -/
def compute (ad : Adapter) (st : RegistryState) (df : Table)
    (name_or_alias : String) (params : Dict Value) (backend : String) :
    Except Err ComputeResult × Table :=
  match computePre st df name_or_alias params backend with
  | .error e => (.error e, df)
  | .ok pre =>
    let before := tableCols df
    match ad pre.binding.func (mergeKwargs pre.input_kwargs pre.backend_args) df with
    | .error e => (.error e, df)
    | .ok df2 =>
      ( .ok { columns := (tableCols df2).filter (fun c => !(before.contains c))
            , spec_name := pre.idef.name
            , spec_params := pre.pvals
            , spec_backend := backend
            , spec_func := pre.binding.func
            , spec_inputs := pre.idef.inputs }
      , df2 )

/-- The synonym set `get_regex_package` builds (registry.py lines
241–248): canonical name, synonyms, the requested language's synonym
list, and the `tradingview`/`talib`/`pandas_ta` source labels, with empty
strings dropped.  Python's `set` is modelled as a deduplicated list. -/
def regexSynonyms (idef : IndicatorDef) (lang : String) : List String :=
  (([idef.name] ++ idef.synonyms)
    ++ (dictLookup idef.nlp.synonyms_by_lang lang).getD []
    ++ [ (dictLookup idef.source_labels "tradingview").getD ""
       , (dictLookup idef.source_labels "talib").getD ""
       , (dictLookup idef.source_labels "pandas_ta").getD "" ]).dedup.filter
    (fun s => !(s == ""))

/-- Models `re.escape`: backslash-escape every character other than ASCII
alphanumerics and underscore. -/
def reEscape (s : String) : String :=
  ⟨s.data.flatMap fun c =>
    if c.isAlphanum ∨ c = '_' then [c] else ['\\', c]⟩

/-- Stable insertion sort by decreasing length, modelling
`sorted(syns, key=len, reverse=True)` (ties keep the incoming order,
which for a Python `set` is unspecified anyway; no claim depends on it). -/
def insertByLen (x : String) : List String → List String
  | [] => [x]
  | y :: ys => if y.length < x.length then x :: y :: ys else y :: insertByLen x ys

def sortByLenDesc (l : List String) : List String :=
  l.foldr insertByLen []

/-- The compiled synonym detector: either the case-insensitive
word-boundary alternation over the escaped synonyms, or — when the
synonym set is empty — the pattern `(?!x)x`, whose language is empty. -/
inductive SynPattern where
  | never
  | alt (alternatives : List String)
deriving DecidableEq, Repr

/-- Models `synonyms_pat = re.compile(r"(?i)\b(" + "|".join(escaped) + r")\b")
if escaped else re.compile(r"(?!x)x")` (registry.py line 250). -/
def synonymsPattern (idef : IndicatorDef) (lang : String) : SynPattern :=
  let escaped := (sortByLenDesc (regexSynonyms idef lang)).map reEscape
  if escaped.isEmpty then .never else .alt escaped

/-- Whether the compiled synonym detector finds a match in `s`.
`(?!x)x` can match no string at all.  For the alternation the model uses
case-insensitive substring occurrence; the `\b` boundary refinement is
not modelled (no claim depends on the alternation branch). -/
def patMatches : SynPattern → String → Bool
  | .never, _ => false
  | .alt alts, s => alts.any fun a => strContains s.toLower a.toLower

/-- The placeholder table of `get_regex_package` (registry.py lines
252–259), substituted into each template in insertion order. -/
def templateRepl : List (String × String) :=
  [ ("\x7bWINDOW\x7d", "(?P<window>\\d\x7b1,3\x7d)")
  , ("\x7bFAST\x7d", "(?P<fast>\\d\x7b1,3\x7d)")
  , ("\x7bSLOW\x7d", "(?P<slow>\\d\x7b1,3\x7d)")
  , ("\x7bSIGNAL\x7d", "(?P<signal>\\d\x7b1,3\x7d)")
  , ("\x7bSTDEV\x7d", "(?P<stdev>\\d\x7b1,2\x7d(?:\\.\\d+)?)")
  , ("\x7bTHRESHOLD\x7d", "(?P<thresh>-?\\d\x7b1,3\x7d(?:\\.\\d+)?)") ]

/-- One template, with every known placeholder substituted; unknown
placeholders stay as literal text. -/
def substituteTemplate (tmpl : String) : String :=
  templateRepl.foldl (fun pat kv => pat.replace kv.1 kv.2) tmpl

/-- The dictionary `get_regex_package` returns (templates kept as the
substituted pattern text, compiled case-insensitively in Python). -/
structure RegexPackage where
  synonyms : SynPattern
  templates : List String
  keywords : List String
  negative_keywords : List String
  default_thresholds : Dict ℚ
deriving DecidableEq, Repr

/-- Models `IndicatorRegistry.get_regex_package` (registry.py lines 228–271). -/
def get_regex_package (st : RegistryState) (name_or_alias : String)
    (lang : String) : Except Err RegexPackage :=
  match resolve st name_or_alias with
  | .error e => .error e
  | .ok idef =>
    .ok { synonyms := synonymsPattern idef lang
        , templates := idef.nlp.regex_templates.map substituteTemplate
        , keywords := idef.nlp.keywords.dedup
        , negative_keywords := idef.nlp.negative_keywords.dedup
        , default_thresholds := idef.default_thresholds }

/-!
Embedded built-in catalog entries.  Only the definitions the claims
reference are embedded (RSI, registered first in
`_load_builtin_definitions`, and PSAR).  Note that every built-in
`ParamSpec` is constructed with six *positional* arguments, so the
description string lands in the `choices` slot — the embedding preserves
this faithfully.  The `FormulaSpec` documentation payload is not read by
any registry operation and is elided as `none`.
-/

/-- The built-in RSI definition (registry.py lines 316–347). -/
def builtinRSI : IndicatorDef :=
  { name := "RSI"
  , group := "momentum"
  , description := "Relative Strength Index, momentum oscillator scaled 0–100."
  , inputs := ["close"]
  , params := [ { name := "window", type := "int", default := .vInt 14
                , min := some 1, max := none
                , choices := some (.ofStr "Averaging length"), description := "" } ]
  , synonyms := ["relative strength index"]
  , source_labels := [("pandas_ta", "rsi"), ("talib", "RSI"), ("tradingview", "RSI")]
  , default_thresholds := [("overbought", 70), ("oversold", 30)]
  , output_schema := [ { name_pattern := "^RSI_(?P<window>\\d+)$"
                       , description := "RSI value", role := "main" } ]
  , bindings := [ { backend := "pandas_ta", func := "rsi"
                  , param_map := [("window", "length")]
                  , input_map := [("close", "close")] } ]
  , nlp := { keywords := ["oscillator", "momentum", "overbought", "oversold"]
           , synonyms_by_lang :=
               [ ("en", ["RSI", "Relative Strength Index"])
               , ("de", ["Relative-Stärke-Index", "RSI"])
               , ("it", ["Indice di Forza Relativa", "RSI"]) ]
           , regex_templates :=
               [ "\\bRSI\\s*\\(\\s*\x7bWINDOW\x7d\\s*\\)"
               , "\\bRelative\\s+Strength\\s+Index\\b\\s*\\(\\s*\x7bWINDOW\x7d\\s*\\)"
               , "\\bRSI\\b\\s*(?:<=|<|>=|>)\\s*\x7bTHRESHOLD\x7d" ]
           , examples := ["RSI(14) crosses above 30", "RSI(14) > 70 indicates overbought"] }
  , formula := none
  , tags := ["oscillator", "momentum", "bounded", "0-100"]
  , references := [[("title", "RSI")]] }

/-- The built-in PSAR definition (registry.py lines 1130–1156); its
`param_map` sends both `af_step` and `af_max` to the backend argument
`max_af`. -/
def builtinPSAR : IndicatorDef :=
  { name := "PSAR"
  , group := "volatility"
  , description := "Parabolic SAR; trend-following stop and reverse."
  , inputs := ["high", "low"]
  , params := [ { name := "af_start", type := "float", default := .vFloat 0.02
                , min := some 0.001, max := some 1
                , choices := some (.ofStr "Start AF"), description := "" }
              , { name := "af_step", type := "float", default := .vFloat 0.02
                , min := some 0.001, max := some 1
                , choices := some (.ofStr "AF step"), description := "" }
              , { name := "af_max", type := "float", default := .vFloat 0.2
                , min := some 0.01, max := some 1
                , choices := some (.ofStr "Max AF"), description := "" } ]
  , synonyms := ["parabolic sar", "sar"]
  , source_labels := [("pandas_ta", "psar"), ("talib", "SAR"), ("tradingview", "SAR")]
  , default_thresholds := []
  , output_schema := [ { name_pattern := "^PSAR[a-z]?_(?P<af_start>\\d+(?:\\.\\d+)?)_(?P<af_max>\\d+(?:\\.\\d+)?)$"
                       , description := "PSAR", role := "main" } ]
  , bindings := [ { backend := "pandas_ta", func := "psar"
                  , param_map := [("af_start", "af"), ("af_step", "max_af"), ("af_max", "max_af")]
                  , input_map := [("high", "high"), ("low", "low")] } ]
  , nlp := { keywords := ["stop and reverse", "trend"]
           , synonyms_by_lang := [("en", ["Parabolic SAR", "SAR"])]
           , regex_templates := ["\\bP(?:arabolic\\s+)?SAR\\b"] }
  , formula := none
  , tags := ["trend", "stop-trail"]
  , references := [[("title", "Parabolic SAR")]] }

/-- A registry holding the embedded part of the built-in catalog, in the
source's registration order (RSI before PSAR). -/
def builtinState : RegistryState :=
  (registerRun (registerRun emptyState builtinRSI).2 builtinPSAR).2

/-!  Concrete fixtures used to instantiate the theorems below.  -/

/-- A minimal registrable indicator with one well-formed `int` parameter
(`choices` genuinely absent, unlike the built-ins). -/
def intParamDef : IndicatorDef :=
  { name := "M1", group := "momentum", description := "", inputs := ["close"]
  , params := [ { name := "w", type := "int", default := .vInt 14
                , min := some 1, max := none, choices := none, description := "" } ] }

def intParamState : RegistryState := (registerRun emptyState intParamDef).2

/-- A minimal registrable indicator with one well-formed `bool` parameter. -/
def boolParamDef : IndicatorDef :=
  { name := "FLG", group := "momentum", description := "", inputs := ["close"]
  , params := [ { name := "flag", type := "bool", default := .vBool false
                , min := none, max := none, choices := none, description := "" } ] }

def boolParamState : RegistryState := (registerRun emptyState boolParamDef).2

/-- A minimal registrable indicator with one well-formed bounded `float`
parameter. -/
def floatParamDef : IndicatorDef :=
  { name := "B1", group := "momentum", description := "", inputs := ["close"]
  , params := [ { name := "x", type := "float", default := .vFloat 0.5
                , min := some 0.1, max := some 2, choices := none, description := "" } ] }

def floatParamState : RegistryState := (registerRun emptyState floatParamDef).2

/-- A parameterless indicator with a `pandas_ta` binding, for exercising
`compute` end to end against a stub adapter. -/
def noParamDef : IndicatorDef :=
  { name := "T1", group := "volume", description := "", inputs := ["close"]
  , params := []
  , bindings := [ { backend := "pandas_ta", func := "t1"
                  , param_map := [], input_map := [("close", "close")] } ] }

def noParamState : RegistryState := (registerRun emptyState noParamDef).2

/-- An input table with OHLC-ish columns. -/
def sampleTable : Table := [("close", [1, 2, 3]), ("volume", [10, 10, 10])]

/-- A stub backend adapter: overwrites the values of the existing `close`
column and attaches one new column `T1_OUT`, mirroring a backend that
both rewrites and extends the shared frame. -/
def stubAdapter : Adapter :=
  fun _ _ t => .ok (dictInsert t "close" [7, 7, 7] ++ [("T1_OUT", [0, 0, 0])])

/-- Registrable definition whose only source label sits under a
source-system key other than the three `get_regex_package` consults. -/
def otherLabelDef : IndicatorDef :=
  { name := "C6X", group := "trend", description := "", inputs := ["close"]
  , params := [], source_labels := [("quandl", "Foo")] }

def otherLabelState : RegistryState := (registerRun emptyState otherLabelDef).2

/-- Modelled from the spec: the synonym set of §4.4 step 2,
`\x7bcanonical name\x7d ∪ synonyms ∪ synonyms_by_lang[language] ∪
\x7bnon-empty source_labels values\x7d`, where the source-label values range
over *all* source-system keys.  Stated only to compare the source's
`regexSynonyms` against the spec's wording. -/
def specSynonymSet (idef : IndicatorDef) (lang : String) : List String :=
  (([idef.name] ++ idef.synonyms)
    ++ (dictLookup idef.nlp.synonyms_by_lang lang).getD []
    ++ idef.source_labels.map Prod.snd).dedup.filter (fun s => !(s == ""))

/-- A registrable definition whose every alias source is empty: its
computed synonym set is empty for any language. -/
def emptyNameDef : IndicatorDef :=
  { name := "", group := "price", description := "", inputs := ["close"], params := [] }

def emptyNameState : RegistryState := (registerRun emptyState emptyNameDef).2

/-- First registration for the alias-shadowing counterexamples. -/
def cexFirst : IndicatorDef :=
  { name := "RSI", group := "momentum", description := "", inputs := ["close"], params := [] }

/-- A later registration that claims the alias `RSI`. -/
def cexAliasGrab : IndicatorDef :=
  { name := "XR", group := "momentum", description := "", inputs := ["close"]
  , params := [], synonyms := ["RSI"] }

/-- A later registration whose canonical name is the lowercase of an
earlier canonical name. -/
def cexLowerName : IndicatorDef :=
  { name := "rsi", group := "momentum", description := "", inputs := ["close"], params := [] }

/-- State after registering `cexFirst` then `cexAliasGrab`. -/
def cexStateA : RegistryState :=
  (registerRun (registerRun emptyState cexFirst).2 cexAliasGrab).2

/-- State after registering `cexFirst` then `cexLowerName`. -/
def cexStateB : RegistryState :=
  (registerRun (registerRun emptyState cexFirst).2 cexLowerName).2

/-!  ## Shared lemmas about the dict model  -/

@[simp]
theorem dictKeys_nil {α : Type} : dictKeys ([] : Dict α) = [] := rfl

@[simp]
theorem dictKeys_cons {α : Type} (k : String) (v : α) (d : Dict α) :
    dictKeys ((k, v) :: d) = k :: dictKeys d := rfl

theorem dictKeys_insert {α : Type} (d : Dict α) (k : String) (v : α) :
    dictKeys (dictInsert d k v) =
      if k ∈ dictKeys d then dictKeys d else dictKeys d ++ [k] := by
  induction d with
  | nil => simp [dictInsert]
  | cons hd tl ih =>
    obtain ⟨k', v'⟩ := hd
    by_cases h : k' = k
    · subst h
      simp [dictInsert]
    · simp only [dictInsert, if_neg h, dictKeys_cons, ih, List.mem_cons]
      have : (k = k' ∨ k ∈ dictKeys tl) ↔ k ∈ dictKeys tl := by
        constructor
        · rintro (rfl | hk)
          · exact absurd rfl h
          · exact hk
        · exact Or.inr
      rw [if_congr this rfl rfl]
      by_cases hk : k ∈ dictKeys tl <;> simp [hk]

theorem mem_dictKeys_of_lookup {α : Type} {d : Dict α} {k : String} {v : α}
    (h : dictLookup d k = some v) : k ∈ dictKeys d := by
  induction d with
  | nil => simp [dictLookup] at h
  | cons hd tl ih =>
    obtain ⟨k', v'⟩ := hd
    by_cases hk : k' = k
    · subst hk; simp
    · simp only [dictLookup, if_neg hk] at h
      exact List.mem_cons_of_mem _ (ih h)

theorem lookup_isSome_of_mem {α : Type} {d : Dict α} {k : String}
    (h : k ∈ dictKeys d) : (dictLookup d k).isSome := by
  induction d with
  | nil => simp at h
  | cons hd tl ih =>
    obtain ⟨k', v'⟩ := hd
    by_cases hk : k' = k
    · subst hk; simp [dictLookup]
    · simp only [dictKeys_cons, List.mem_cons] at h
      rcases h with rfl | h
      · exact absurd rfl hk
      · simpa [dictLookup, if_neg hk] using ih h

theorem dictUpdate_nil {α : Type} (d : Dict α) : dictUpdate d [] = d := rfl

theorem dictUpdate_cons {α : Type} (d : Dict α) (k : String) (v : α)
    (p : List (String × α)) :
    dictUpdate d ((k, v) :: p) = dictUpdate (dictInsert d k v) p := rfl

/-- Updating: `d.update(p)` appends the keys of `p` not already present, leaves the
existing keys in place, and the appended segment is duplicate-free and
disjoint from the original keys. -/
theorem dictUpdate_ext {α : Type} (p : List (String × α)) (d : Dict α) :
    ∃ ext, dictKeys (dictUpdate d p) = dictKeys d ++ ext ∧
      (∀ k ∈ ext, k ∉ dictKeys d) ∧ ext.Nodup := by
  induction p generalizing d with
  | nil => exact ⟨[], by simp [dictUpdate_nil]⟩
  | cons hd tl ih =>
    obtain ⟨k, v⟩ := hd
    rw [dictUpdate_cons]
    obtain ⟨ext, hkeys, hdisj, hnd⟩ := ih (dictInsert d k v)
    by_cases hk : k ∈ dictKeys d
    · refine ⟨ext, ?_, ?_, hnd⟩
      · rwa [dictKeys_insert, if_pos hk] at hkeys
      · intro j hj
        have := hdisj j hj
        rwa [dictKeys_insert, if_pos hk] at this
    · refine ⟨k :: ext, ?_, ?_, ?_⟩
      · rw [dictKeys_insert, if_neg hk] at hkeys
        simpa using hkeys
      · intro j hj
        rcases List.mem_cons.mp hj with rfl | hj
        · exact hk
        · intro hjd
          exact hdisj j hj (by rw [dictKeys_insert, if_neg hk]; exact List.mem_append_left _ hjd)
      · refine List.nodup_cons.mpr ⟨?_, hnd⟩
        intro hkext
        exact hdisj k hkext (by rw [dictKeys_insert, if_neg hk]; simp)

/-- Keys of an updated dict depend only on the keys of the operands. -/
theorem dictKeys_update_congr {α β : Type} :
    ∀ (p₁ : List (String × α)) (p₂ : List (String × β)) (d₁ : Dict α) (d₂ : Dict β),
      p₁.map Prod.fst = p₂.map Prod.fst → dictKeys d₁ = dictKeys d₂ →
      dictKeys (dictUpdate d₁ p₁) = dictKeys (dictUpdate d₂ p₂)
  | [], [], _, _, _, hd => by simpa [dictUpdate_nil] using hd
  | (k₁, v₁) :: t₁, (k₂, v₂) :: t₂, d₁, d₂, hp, hd => by
    simp only [List.map_cons, List.cons.injEq] at hp
    obtain ⟨rfl, hp⟩ := hp
    rw [dictUpdate_cons, dictUpdate_cons]
    refine dictKeys_update_congr t₁ t₂ _ _ hp ?_
    rw [dictKeys_insert, dictKeys_insert, hd]

theorem dictUpdate_cons_not_mem {α : Type} :
    ∀ (p : List (String × α)) (d : Dict α) (k : String) (v : α),
      k ∉ dictKeys p →
      dictUpdate ((k, v) :: d) p = (k, v) :: dictUpdate d p
  | [], _, _, _, _ => rfl
  | (k₁, v₁) :: t, d, k, v, h => by
    simp only [dictKeys_cons, List.mem_cons] at h
    push_neg at h
    obtain ⟨hne, ht⟩ := h
    rw [dictUpdate_cons, dictUpdate_cons]
    have hins : dictInsert ((k, v) :: d) k₁ v₁ = (k, v) :: dictInsert d k₁ v₁ := by
      rw [dictInsert, if_neg hne]
    rw [hins]
    exact dictUpdate_cons_not_mem t (dictInsert d k₁ v₁) k v ht

/-- Updating a duplicate-free dict with a dict carrying exactly the same
keys in the same order returns the update verbatim. -/
theorem dictUpdate_self {α : Type} :
    ∀ (d r : Dict α), dictKeys r = dictKeys d → (dictKeys d).Nodup →
      dictUpdate d r = r
  | [], [], _, _ => rfl
  | [], (k, v) :: t, h, _ => by simp at h
  | (k, v) :: t, [], h, _ => by simp at h
  | (k, v) :: t, (k', w) :: r', h, hnd => by
    simp only [dictKeys_cons, List.cons.injEq] at h
    obtain ⟨rfl, hkeys⟩ := h
    simp only [dictKeys_cons, List.nodup_cons] at hnd
    obtain ⟨hknot, hnd⟩ := hnd
    rw [dictUpdate_cons, dictInsert, if_pos rfl]
    have hnotr : k' ∉ dictKeys r' := by rwa [hkeys]
    rw [dictUpdate_cons_not_mem r' t k' w hnotr, dictUpdate_self t r' hkeys hnd]

/-!  ## Shared lemmas about `exceptMapM`  -/

theorem exceptMapM_ok_cons {ε α β : Type} {f : α → Except ε β} {hd : α} {tl : List α}
    {r : List β} (h : exceptMapM f (hd :: tl) = .ok r) :
    ∃ y ys, f hd = .ok y ∧ exceptMapM f tl = .ok ys ∧ r = y :: ys := by
  rw [exceptMapM] at h
  cases hf : f hd with
  | error e => rw [hf] at h; simp at h
  | ok y =>
    rw [hf] at h
    cases ht : exceptMapM f tl with
    | error e => rw [ht] at h; simp at h
    | ok ys =>
      rw [ht] at h
      simp only [Except.ok.injEq] at h
      exact ⟨y, ys, rfl, rfl, h.symm⟩

theorem exceptMapM_ok_forall {ε α β : Type} {f : α → Except ε β} :
    ∀ {l : List α} {r : List β}, exceptMapM f l = .ok r → ∀ x ∈ l, ∃ y, f x = .ok y := by
  intro l
  induction l with
  | nil => intro r _ x hx; simp at hx
  | cons hd tl ih =>
    intro r h x hx
    obtain ⟨y, ys, hy, hys, rfl⟩ := exceptMapM_ok_cons h
    rcases List.mem_cons.mp hx with rfl | hx
    · exact ⟨y, hy⟩
    · exact ih hys x hx

/-- Keys survive a successful entrywise pass whose step preserves keys. -/
theorem exceptMapM_ok_fst {ε α β : Type} {f : String × α → Except ε (String × β)}
    (hfst : ∀ kv out, f kv = .ok out → out.1 = kv.1) :
    ∀ {l : List (String × α)} {r : List (String × β)},
      exceptMapM f l = .ok r → r.map Prod.fst = l.map Prod.fst := by
  intro l
  induction l with
  | nil =>
    intro r h
    simp only [exceptMapM, Except.ok.injEq] at h
    simp [← h]
  | cons hd tl ih =>
    intro r h
    obtain ⟨y, ys, hy, hys, rfl⟩ := exceptMapM_ok_cons h
    simp [hfst hd y hy, ih hys]

/-- If the step is idempotent on its own successful outputs, a successful
entrywise pass is a fixed point of the pass. -/
theorem exceptMapM_ok_idem {ε α : Type} {f : α → Except ε α}
    (hid : ∀ x y, f x = .ok y → f y = .ok y) :
    ∀ {l r : List α}, exceptMapM f l = .ok r → exceptMapM f r = .ok r := by
  intro l
  induction l with
  | nil =>
    intro r h
    simp only [exceptMapM, Except.ok.injEq] at h
    rw [← h]
    rfl
  | cons hd tl ih =>
    intro r h
    obtain ⟨y, ys, hy, hys, rfl⟩ := exceptMapM_ok_cons h
    have hy' := hid hd y hy
    have hys' := ih hys
    rw [exceptMapM, hy', hys']

/-!  ## Lemmas about one validation step  -/

/-- Inversion principle for a successful `validateStep`. -/
theorem validateStep_ok_inv {iname : String} {pmap : Dict ParamSpec}
    {kv out : String × Value} (h : validateStep iname pmap kv = .ok out) :
    ∃ spec w, dictLookup pmap kv.1 = some spec ∧
      coerceValue kv.1 spec.type kv.2 = .ok w ∧
      checkMin kv.1 spec w = .ok () ∧
      checkMax kv.1 spec w = .ok () ∧
      checkChoices kv.1 spec w = .ok () ∧
      out = (kv.1, w) := by
  rw [validateStep] at h
  split at h
  · simp at h
  · rename_i spec hlk
    split at h
    · simp at h
    · rename_i w hco
      split at h
      · simp at h
      · rename_i u hmin
        split at h
        · simp at h
        · rename_i u' hmax
          split at h
          · simp at h
          · rename_i u'' hch
            simp only [Except.ok.injEq] at h
            exact ⟨spec, w, hlk, hco, hmin, hmax, hch, h.symm⟩

theorem validateStep_fst {iname : String} {pmap : Dict ParamSpec}
    {kv out : String × Value} (h : validateStep iname pmap kv = .ok out) :
    out.1 = kv.1 := by
  obtain ⟨spec, w, _, _, _, _, _, rfl⟩ := validateStep_ok_inv h
  rfl

theorem validateStep_key_mem {iname : String} {pmap : Dict ParamSpec}
    {kv out : String × Value} (h : validateStep iname pmap kv = .ok out) :
    kv.1 ∈ dictKeys pmap := by
  obtain ⟨spec, w, hlk, _⟩ := validateStep_ok_inv h
  exact mem_dictKeys_of_lookup hlk

/-- A successful `bool` coercion always produces a native boolean. -/
theorem coerceBool_ok_isBool {nm : String} {v w : Value}
    (h : coerceBool nm v = .ok w) : ∃ b, w = .vBool b := by
  cases v with
  | vBool b =>
    simp only [coerceBool, Except.ok.injEq] at h
    exact ⟨b, h.symm⟩
  | vInt n =>
    rw [coerceBool] at h
    split_ifs at h <;> simp only [Except.ok.injEq] at h <;> exact ⟨_, h.symm⟩
  | vFloat q =>
    rw [coerceBool] at h
    split_ifs at h <;> simp only [Except.ok.injEq] at h <;> exact ⟨_, h.symm⟩
  | vStr s =>
    rw [coerceBool] at h
    split_ifs at h <;> simp only [Except.ok.injEq] at h <;> exact ⟨_, h.symm⟩

/-- Coercion by declared type is idempotent: re-coercing a successfully
coerced value returns it unchanged. -/
theorem coerceValue_idem {nm ty : String} {v w : Value}
    (h : coerceValue nm ty v = .ok w) : coerceValue nm ty w = .ok w := by
  rw [coerceValue] at h ⊢
  split_ifs at h ⊢
  · -- int
    cases hv : pyInt v with
    | none => rw [hv] at h; simp at h
    | some n =>
      rw [hv] at h
      simp only [Except.ok.injEq] at h
      rw [← h]
      simp [pyInt]
  · -- float
    cases hv : pyFloat v with
    | none => rw [hv] at h; simp at h
    | some q =>
      rw [hv] at h
      simp only [Except.ok.injEq] at h
      rw [← h]
      simp [pyFloat]
  · -- bool
    obtain ⟨b, rfl⟩ := coerceBool_ok_isBool h
    rfl
  · -- str
    simp only [Except.ok.injEq] at h
    rw [← h]
    simp [pyStr]
  · -- unrecognised declared type: value passes through unchanged
    simp only [Except.ok.injEq] at h
    rw [← h]

/-- A successfully validated entry re-validates to itself: the key lookup
is unchanged, the coercion is idempotent, and the bound checks are a
function of the already-checked coerced value. -/
theorem validateStep_idem {iname : String} {pmap : Dict ParamSpec}
    {kv out : String × Value} (h : validateStep iname pmap kv = .ok out) :
    validateStep iname pmap out = .ok out := by
  obtain ⟨spec, w, hlk, hco, hmin, hmax, hch, rfl⟩ := validateStep_ok_inv h
  simp only [validateStep, hlk, coerceValue_idem hco, hmin, hmax, hch]

/-- Unfolding: `dictKeys` is literally `map Prod.fst`. -/
theorem dictKeys_def {α : Type} (d : Dict α) : dictKeys d = d.map Prod.fst := rfl

/-- The keys of the `pmap` of `validate_params` coincide with the keys of
the parameter defaults: both dicts are built from the parameter list
keyed by parameter name. -/
theorem dictKeys_pmap_eq_defaults (idef : IndicatorDef) :
    dictKeys (pmapOf idef) = dictKeys (param_defaults idef) := by
  refine dictKeys_update_congr _ _ _ _ ?_ rfl
  simp [List.map_map, Function.comp]

/-- The defaults dict has duplicate-free keys. -/
theorem nodup_defaults (idef : IndicatorDef) :
    (dictKeys (param_defaults idef)).Nodup := by
  obtain ⟨ext, hkeys, _, hnd⟩ :=
    dictUpdate_ext (idef.params.map fun p => (p.name, p.default)) ([] : Dict Value)
  rw [param_defaults, hkeys]
  simpa using hnd

/-- C4: `validate_params` is idempotent — if `validate_params(name, p)`
succeeds with result `r`, then `validate_params(name, r)` succeeds and
returns `r` unchanged. -/
theorem validate_params_idempotent (st : RegistryState) (n : String)
    (p r : Dict Value) (h : validate_params st n p = .ok r) :
    validate_params st n r = .ok r := by
  rw [validate_params] at h ⊢
  cases hres : resolve st n with
  | error e => rw [hres] at h; simp at h
  | ok idef =>
    rw [hres] at h
    replace h : exceptMapM (validateStep idef.name (pmapOf idef))
        (dictUpdate (param_defaults idef) p) = .ok r := h
    show exceptMapM (validateStep idef.name (pmapOf idef))
        (dictUpdate (param_defaults idef) r) = .ok r
    -- every key surviving a successful pass is a parameter name
    have hsub : ∀ k ∈ dictKeys (dictUpdate (param_defaults idef) p),
        k ∈ dictKeys (pmapOf idef) := by
      intro k hk
      rw [dictKeys_def] at hk
      obtain ⟨⟨k', v⟩, hmem, rfl⟩ := List.mem_map.mp hk
      obtain ⟨y, hy⟩ := exceptMapM_ok_forall h _ hmem
      exact validateStep_key_mem hy
    -- hence the overrides introduced no new keys
    obtain ⟨ext, hext, hextdisj, _⟩ := dictUpdate_ext p (param_defaults idef)
    have hext_nil : ext = [] := by
      cases ext with
      | nil => rfl
      | cons e es =>
        exfalso
        have he : e ∈ dictKeys (dictUpdate (param_defaults idef) p) := by
          rw [hext]; simp
        have := hsub e he
        rw [dictKeys_pmap_eq_defaults] at this
        exact hextdisj e (by simp) this
    have hkeys_out0 : dictKeys (dictUpdate (param_defaults idef) p)
        = dictKeys (param_defaults idef) := by
      rw [hext, hext_nil, List.append_nil]
    -- the result carries exactly the default keys, in order
    have hkeys_r : dictKeys r = dictKeys (param_defaults idef) := by
      have hfst := exceptMapM_ok_fst (fun kv out hko => validateStep_fst hko) h
      rw [dictKeys_def, hfst, ← dictKeys_def, hkeys_out0]
    -- so re-updating the defaults with the result reproduces the result,
    rw [dictUpdate_self _ _ hkeys_r (nodup_defaults idef)]
    -- and the entrywise pass is idempotent
    exact exceptMapM_ok_idem (fun x y hxy => validateStep_idem hxy) h

/-- Witness for C4: a concrete successful validation (string `"20"`
coerced to the integer `20`) whose result re-validates to itself. -/
theorem validate_params_idempotent_witness :
    validate_params intParamState "M1" [("w", .vStr "20")] = .ok [("w", .vInt 20)] ∧
    validate_params intParamState "M1" [("w", .vInt 20)] = .ok [("w", .vInt 20)] :=
  ⟨by decide, validate_params_idempotent intParamState "M1"
    [("w", .vStr "20")] [("w", .vInt 20)] (by decide)⟩

/-!  ## Claim theorems: compute dispatch  -/

/-- C1: every successful `compute` call returns as new columns exactly
the post-call columns absent from the pre-call column set, in post-call
column order (a sublist of the post-call columns); in particular no
pre-existing column is ever reported as new, even when the backend
overwrote its values. -/
theorem compute_new_columns (ad : Adapter) (st : RegistryState) (df : Table)
    (n : String) (p : Dict Value) (b : String) (res : ComputeResult) (t' : Table)
    (h : compute ad st df n p b = (.ok res, t')) :
    res.columns = (tableCols t').filter (fun c => !((tableCols df).contains c)) ∧
    (∀ c, c ∈ res.columns ↔ c ∈ tableCols t' ∧ c ∉ tableCols df) ∧
    res.columns.Sublist (tableCols t') ∧
    (∀ c ∈ tableCols df, c ∉ res.columns) := by
  rw [compute] at h
  split at h
  · simp at h
  · rename_i pre hpre
    split at h
    · simp at h
    · rename_i df2 had
      simp only [Prod.mk.injEq, Except.ok.injEq] at h
      obtain ⟨hres, ht⟩ := h
      subst ht
      rw [← hres]
      refine ⟨rfl, ?_, List.filter_sublist _, ?_⟩
      · intro c
        simp [List.mem_filter]
      · intro c hc hmem
        simp only [List.mem_filter] at hmem
        exact absurd hc (by simpa using hmem.2)

/-- Witness for C1: on a table with `close`/`volume` columns, a stub
backend that rewrites `close` and attaches `T1_OUT` yields exactly
`["T1_OUT"]` as new columns, and the pre-existing `close` column is not
reported. -/
theorem compute_new_columns_witness :
    compute stubAdapter noParamState sampleTable "T1" [] "pandas_ta" =
      (.ok ⟨["T1_OUT"], "T1", [], "pandas_ta", "t1", ["close"]⟩,
        [("close", [7, 7, 7]), ("volume", [10, 10, 10]), ("T1_OUT", [0, 0, 0])]) ∧
    "close" ∉ (ComputeResult.mk ["T1_OUT"] "T1" [] "pandas_ta" "t1" ["close"]).columns :=
  ⟨by decide,
   (compute_new_columns stubAdapter noParamState sampleTable "T1" [] "pandas_ta"
      ⟨["T1_OUT"], "T1", [], "pandas_ta", "t1", ["close"]⟩
      [("close", [7, 7, 7]), ("volume", [10, 10, 10]), ("T1_OUT", [0, 0, 0])]
      (by decide)).2.2.2 "close" (by decide)⟩

/-- C5: a `compute` failure arising before the backend invocation (as
observed by failing even under the never-failing identity adapter) is
returned with the caller's table unchanged and identically for every
adapter — the backend is never consulted; and when the pre-invocation
phase succeeds, an error raised by the backend adapter propagates to the
caller unmodified. -/
theorem compute_failure_semantics (st : RegistryState) (df : Table)
    (n : String) (p : Dict Value) (b : String) :
    (∀ e t, compute idAdapter st df n p b = (.error e, t) →
      t = df ∧ ∀ ad, compute ad st df n p b = (.error e, df)) ∧
    (∀ pre ad e, computePre st df n p b = .ok pre →
      ad pre.binding.func (mergeKwargs pre.input_kwargs pre.backend_args) df = .error e →
      compute ad st df n p b = (.error e, df)) := by
  constructor
  · intro e t h
    rw [compute] at h
    split at h
    · rename_i e' hpre
      simp only [Prod.mk.injEq, Except.error.injEq] at h
      obtain ⟨rfl, rfl⟩ := h
      exact ⟨rfl, fun ad => by rw [compute, hpre]⟩
    · rename_i pre hpre
      split at h
      · rename_i e' had
        simp [idAdapter] at had
      · rename_i df2 had
        simp at h
  · intro pre ad e hpre had
    simp only [compute, hpre, had]

/-- Witness for C5: an unknown-indicator failure is raised before the
backend runs, with the table unchanged, for an arbitrary adapter. -/
theorem compute_failure_semantics_witness :
    compute stubAdapter noParamState sampleTable "nope" [] "pandas_ta" =
      (.error (.unknownIndicator "nope" ["T1"]), sampleTable) :=
  ((compute_failure_semantics noParamState sampleTable "nope" [] "pandas_ta").1
    (.unknownIndicator "nope" ["T1"]) sampleTable (by decide)).2 stubAdapter

/-- C10: in `compute`'s parameter translation each validated parameter is
renamed through `param_map` (unmapped names pass through) in declaration
order, so for the built-in PSAR binding — which maps both `af_step` and
`af_max` to the backend argument `max_af` — the later `af_max` value
silently overwrites the validated `af_step` value, which never reaches
the backend. -/
theorem psar_param_map_overwrite :
    (dictLookup (builtinPSAR.bindings.headD ⟨"", "", [], []⟩).param_map "af_step"
        = some "max_af" ∧
     dictLookup (builtinPSAR.bindings.headD ⟨"", "", [], []⟩).param_map "af_max"
        = some "max_af") ∧
    (∀ a b c : Value,
      translateBackendArgs (builtinPSAR.bindings.headD ⟨"", "", [], []⟩).param_map
        [("af_start", a), ("af_step", b), ("af_max", c)]
        = [("af", a), ("max_af", c)]) ∧
    (∀ (pm : Dict String) (pvals : Dict Value),
      translateBackendArgs pm pvals
        = dictUpdate [] (pvals.map fun kv => ((dictLookup pm kv.1).getD kv.1, kv.2))) :=
  ⟨⟨rfl, rfl⟩, fun _ _ _ => rfl, fun _ _ => rfl⟩

/-!  ## Claim theorems: registration and resolution  -/

/-- C3: registering a definition whose canonical name is already in the
catalog raises the duplicate error and returns the registry state
exactly as it was — the check precedes every mutation — so every
resolution gives the same result as before the call. -/
theorem register_duplicate (st : RegistryState) (d J : IndicatorDef)
    (h : dictLookup st.defs d.name = some J) :
    registerRun st d = (.error (.duplicateDef d.name), st) ∧
    ∀ q, resolve (registerRun st d).2 q = resolve st q := by
  have hr : registerRun st d = (.error (.duplicateDef d.name), st) := by
    rw [registerRun, if_pos (by rw [h]; rfl)]
  exact ⟨hr, fun q => by rw [hr]⟩

/-- Witness for C3: re-registering the built-in RSI fails with the
duplicate error, leaves the state untouched, and `RSI` still resolves to
the first registration. -/
theorem register_duplicate_witness :
    registerRun builtinState builtinRSI = (.error (.duplicateDef "RSI"), builtinState) ∧
    resolve (registerRun builtinState builtinRSI).2 "rsi" = .ok builtinRSI :=
  ⟨(register_duplicate builtinState builtinRSI builtinRSI (by decide)).1,
   ((register_duplicate builtinState builtinRSI builtinRSI (by decide)).2 "rsi").trans
     (by decide)⟩

/-- C2 counterexample: the claim fails as stated.  Register `RSI`; a
later registration can (a) grab the alias `RSI` in the synonym index, or
(b) take the canonical name `rsi`; in both registries `resolve "RSI"`
then returns the later definition, not the first one. -/
theorem resolve_alias_shadowing_counterexample :
    (resolve cexStateA "RSI" = .ok cexAliasGrab ∧ cexAliasGrab ≠ cexFirst) ∧
    (resolve cexStateB "RSI" = .ok cexLowerName ∧ cexLowerName ≠ cexFirst) := by
  decide

/-- C2 (amended): `resolve` of a registered definition's name or alias,
in any letter case, returns that definition, PROVIDED the registry's
alias index still maps the stripped-lowercased query to the definition's
canonical name (no later registration re-bound it) and no other
registered definition's canonical name equals the stripped-lowercased
query. -/
theorem resolve_alias_intact (st : RegistryState) (I : IndicatorDef) (q : String)
    (hcanon : dictLookup st.defs (normKey q) = none ∨
      dictLookup st.defs (normKey q) = some I)
    (hsyn : dictLookup st.syn_index (normKey q) = some I.name)
    (hdef : dictLookup st.defs I.name = some I) :
    resolve st q = .ok I := by
  simp only [resolve]
  rcases hcanon with hc | hc
  · simp only [hc, hsyn, hdef]
  · simp only [hc]

/-- Witness for C2: in the embedded built-in registry, the RSI synonym
`relative strength index` resolves to the RSI definition in upper case. -/
theorem resolve_alias_intact_witness :
    resolve builtinState "Relative Strength Index" = .ok builtinRSI :=
  resolve_alias_intact builtinState builtinRSI "Relative Strength Index"
    (Or.inl (by decide)) (by decide) (by decide)

/-!  ## Claim theorems: parameter validation  -/

/-- C7 counterexample: for a `bool` parameter, the integer `1` — neither
a boolean nor a string — is accepted and coerced to `True` (Python takes
`str(1) = "1"`), where the claim requires an invalid-parameter error. -/
theorem validate_bool_int_counterexample :
    validate_params boolParamState "FLG" [("flag", .vInt 1)] =
      .ok [("flag", .vBool true)] := by
  decide

/-- C7 (amended): for a declared `bool` parameter, `validate_params`
accepts a native boolean unchanged; any other value is converted with
`str(...)` and lowercased — the forms `1/true/yes/y` give `True`, the
forms `0/false/no/n` give `False`, and every value whose string form is
not one of these fails with the invalid-parameter error.  In particular
non-string values such as the integers `1` and `0` are accepted. -/
theorem validate_bool_param (st : RegistryState) (n : String) (idef : IndicatorDef)
    (pname : String) (d v : Value)
    (hres : resolve st n = .ok idef)
    (hparams : idef.params = [⟨pname, "bool", d, none, none, none, ""⟩]) :
    validate_params st n [(pname, v)] =
      match v with
      | .vBool b => .ok [(pname, .vBool b)]
      | _ =>
        if asciiLower (pyStr v) ∈ trueForms then .ok [(pname, .vBool true)]
        else if asciiLower (pyStr v) ∈ falseForms then .ok [(pname, .vBool false)]
        else .error (.invalidParam pname "expects bool") := by
  have hstep : validate_params st n [(pname, v)] =
      match coerceBool pname v with
      | .error e => .error e
      | .ok w => .ok [(pname, w)] := by
    rw [validate_params, hres]
    simp only [hparams, param_defaults, pmapOf, List.map_cons, List.map_nil]
    show exceptMapM _ (dictUpdate (dictUpdate [] [(pname, d)]) [(pname, v)]) = _
    simp only [dictUpdate, List.foldl, dictInsert, if_pos rfl]
    show exceptMapM _ [(pname, v)] = _
    simp only [exceptMapM, validateStep, dictLookup, if_pos rfl, coerceValue]
    norm_num only
    cases hcb : coerceBool pname v with
    | error e => rfl
    | ok w =>
      obtain ⟨b, rfl⟩ := coerceBool_ok_isBool hcb
      simp [checkMin, checkMax, checkChoices]
  rw [hstep]
  cases v with
  | vBool b => rfl
  | vInt m =>
    rw [coerceBool]
    split_ifs with h1 h2 <;> rfl
  | vFloat q =>
    rw [coerceBool]
    split_ifs with h1 h2 <;> rfl
  | vStr s =>
    rw [coerceBool]
    split_ifs with h1 h2 <;> rfl

/-- Witness for C7: the registered `FLG` indicator's bool parameter maps
the mixed-case string `"YES"` to `True`. -/
theorem validate_bool_param_witness :
    validate_params boolParamState "FLG" [("flag", .vStr "YES")] =
      .ok [("flag", .vBool true)] :=
  (validate_bool_param boolParamState "FLG" boolParamDef "flag" (.vBool false)
    (.vStr "YES") (by decide) (by decide)).trans (by decide)

/-- C8: the claim's below-minimum half holds on the built-in catalog
(`window = 0` raises the invalid-parameter error naming the min bound),
but the boundary half does not: at `window = 1` the built-in RSI
definition raises a `TypeError`, because every built-in `ParamSpec` is
constructed with six positional arguments, which places the description
string `"Averaging length"` into the `choices` slot, and Python's
`1 not in "Averaging length"` is a `TypeError`.  The code contradicts
its own `choices: Optional[List[Any]]` annotation. -/
theorem validate_builtin_min_boundary_type_error :
    validate_params builtinState "RSI" [("window", .vInt 0)] =
      .error (.invalidParam "window" "< min") ∧
    validate_params builtinState "RSI" [("window", .vInt 1)] =
      .error (.typeError "window") := by
  decide

/-!  ## Claim theorems: regex/NLP synthesis  -/

/-- C6 counterexample: a registrable definition whose only source label
sits under the key `quandl` has that label in the spec's synonym union
but not in the synonym set the code builds — `get_regex_package` reads
only the `tradingview`/`talib`/`pandas_ta` keys. -/
theorem regex_synonyms_source_labels_counterexample :
    (registerRun emptyState otherLabelDef).1 = .ok () ∧
    "Foo" ∈ specSynonymSet otherLabelDef "en" ∧
    "Foo" ∉ regexSynonyms otherLabelDef "en" := by
  decide

/-- C6 (amended): the synonym set used by `get_regex_package` consists
exactly of the non-empty strings among the canonical name, the
definition's synonyms, the requested language's synonym list, and the
source-label values under the three keys `tradingview`, `talib` and
`pandas_ta` (labels under any other source-system key are ignored). -/
theorem regexSynonyms_membership (idef : IndicatorDef) (lang : String) (s : String) :
    s ∈ regexSynonyms idef lang ↔
      s ≠ "" ∧ (s = idef.name ∨ s ∈ idef.synonyms ∨
        s ∈ (dictLookup idef.nlp.synonyms_by_lang lang).getD [] ∨
        s ∈ [ (dictLookup idef.source_labels "tradingview").getD ""
            , (dictLookup idef.source_labels "talib").getD ""
            , (dictLookup idef.source_labels "pandas_ta").getD "" ]) := by
  simp only [regexSynonyms, List.mem_filter, List.mem_dedup, List.mem_append,
    List.mem_cons, List.mem_singleton, Bool.not_eq_true', beq_eq_false_iff_ne,
    ne_eq, decide_eq_true_eq]
  tauto

/-- C9: when the computed synonym set for the requested language is
empty, `get_regex_package` does not fail: it returns the never-matching
pattern `(?!x)x` as the synonym detector, and that pattern matches no
input string. -/
theorem regex_package_empty_synonyms (st : RegistryState) (q lang : String)
    (idef : IndicatorDef) (pkg : RegexPackage)
    (hres : resolve st q = .ok idef)
    (hempty : regexSynonyms idef lang = [])
    (hpkg : get_regex_package st q lang = .ok pkg) :
    pkg.synonyms = SynPattern.never ∧ ∀ s, patMatches pkg.synonyms s = false := by
  rw [get_regex_package, hres] at hpkg
  simp only [Except.ok.injEq] at hpkg
  have hsyn : pkg.synonyms = SynPattern.never := by
    rw [← hpkg]
    show synonymsPattern idef lang = SynPattern.never
    rw [synonymsPattern, hempty]
    rfl
  exact ⟨hsyn, fun s => by rw [hsyn]; rfl⟩

/-- Witness for C9: a registered definition whose name, synonyms and
labels are all empty yields the never-matching detector, which rejects a
phrase that mentions an indicator. -/
theorem regex_package_empty_synonyms_witness :
    patMatches (RegexPackage.mk SynPattern.never [] [] [] []).synonyms
      "RSI(14) crosses above 30" = false :=
  (regex_package_empty_synonyms emptyNameState "" "en" emptyNameDef
    (RegexPackage.mk SynPattern.never [] [] [] [])
    (by decide) (by decide) (by decide)).2 "RSI(14) crosses above 30"

end IndicatorRegistry
